import Mathlib

/-!
Verification of the schedule-reconciliation and punctuality-aggregation
pipeline of the bus-metrics repository.  The Lean definitions below are a
shallow embedding of the pipeline code:

* `Schedule_Builder.split_realtime_data`, `Schedule_Builder.build_realtime`,
  `Schedule_Builder.build_timetable` and `Schedule_Builder.punctuality_by_stop`
  from `src/bus_metrics/aggregation/build_schedules.py`;
* `convert_string_time_to_unix`, `convert_unix_to_time_string` and
  `build_stops` from `src/bus_metrics/aggregation/preprocessing.py`;
* `AggregationTool.merge_geographies_with_stop_punctuality` and
  `AggregationTool._reaggregate_punctuality` from
  `src/bus_metrics/aggregation/punctuality_rate.py`.

Dataframes are embedded as lists of rows (structures); float columns are
embedded as rationals, machine integers as `Int`/`Nat`, nullable columns as
`Option`, and fallible file reads as `Except`.
-/

namespace BusMetrics

/-- Python `int()` applied to a non-negative or negative rational: truncation
toward zero, as performed by `astype(int)` in `_reaggregate_punctuality`. -/
def truncTowardZero (q : ℚ) : ℤ :=
  if 0 ≤ q then ⌊q⌋ else ⌈q⌉

/-- The `punctual` column of `punctuality_by_stop`:
`pl.when((rel > -300) & (rel < 60)).then(1).otherwise(0)`. -/
def punctualFlag (relative_punctuality : ℤ) : ℕ :=
  if -300 < relative_punctuality ∧ relative_punctuality < 60 then 1 else 0

/-- One realtime vehicle-position ping (a row of the realtime dataframe in
`build_schedules.py`); `trip_id`, `route_id` and `current_stop` are nullable
columns. -/
structure Ping where
  time_ingest : ℤ
  time_transpond : ℤ
  bus_id : ℤ
  trip_id : Option String
  route_id : Option String
  current_stop : Option ℕ
  latitude : ℚ
  longitude : ℚ
  bearing : ℚ
  journey_date : ℕ
deriving DecidableEq, Repr

/-- `Schedule_Builder.split_realtime_data`: `labelled_real` keeps the rows with
`trip_id` AND `route_id` non-null; `unlabelled_real` keeps the rows with
`trip_id` AND `route_id` both null. -/
def split_realtime_data (df : List Ping) : List Ping × List Ping :=
  (df.filter fun p => p.trip_id.isSome && p.route_id.isSome,
   df.filter fun p => p.trip_id.isNone && p.route_id.isNone)

/-- The `UID` column built in `build_realtime`:
`concat_str([journey_date, current_stop, trip_id, route_id], separator="_")`;
`concat_str` yields null when any component is null. -/
def pingUID (p : Ping) : Option String :=
  match p.current_stop, p.trip_id, p.route_id with
  | some cs, some t, some r =>
      some (toString p.journey_date ++ "_" ++ toString cs ++ "_" ++ t ++ "_" ++ r)
  | _, _, _ => none

/-- Sort key of `df.sort(["trip_id", "current_stop", "time_transpond",
"time_ingest"])` in `build_realtime`: ascending lexicographic order on the four
columns, nulls first (polars default). -/
def pingSortKey (p : Ping) : Lex ((WithBot String) × Lex ((WithBot ℕ) × Lex (ℤ × ℤ))) :=
  toLex ((p.trip_id : WithBot String),
    toLex ((p.current_stop : WithBot ℕ), toLex (p.time_transpond, p.time_ingest)))

/-- The row order produced by the polars ascending sort in `build_realtime`. -/
def pingLE (p q : Ping) : Prop :=
  pingSortKey p ≤ pingSortKey q

instance : DecidableRel pingLE := fun p q =>
  inferInstanceAs (Decidable (pingSortKey p ≤ pingSortKey q))

instance : IsTotal Ping pingLE :=
  ⟨fun p q => le_total (pingSortKey p) (pingSortKey q)⟩

instance : IsTrans Ping pingLE :=
  ⟨fun _ _ _ h h' => le_trans h h'⟩

/-- `df.unique(key, keep="last")`: keep, for every key value, the last row of
the dataframe carrying that key, preserving row order otherwise. -/
def uniqueKeepLast {α β : Type} (key : α → β) [DecidableEq β] : List α → List α
  | [] => []
  | x :: xs =>
      if xs.any (fun y => decide (key y = key x)) then uniqueKeepLast key xs
      else x :: uniqueKeepLast key xs

/-- `Schedule_Builder.build_realtime` after the raw load: split into
labelled/unlabelled, sort the labelled rows by (trip_id, current_stop,
time_transpond, time_ingest) ascending, build `UID`, and deduplicate keeping
the last row per `UID`.  Returns `(labelled-deduplicated, unlabelled)`. -/
def build_realtime (df : List Ping) : List Ping × List Ping :=
  let split := split_realtime_data df
  let sorted := List.insertionSort pingLE split.1
  (uniqueKeepLast pingUID sorted, split.2)

/-- One stop-level punctuality row joined with its geography lookup labels
(input of `AggregationTool._reaggregate_punctuality`). -/
structure GeogLabelledRow where
  stop_id : ℕ
  service_stops : ℕ
  punctuality_rate : ℚ
  geography_code : String
  geography_name : String
deriving DecidableEq, Repr

/-- One output row of `AggregationTool._reaggregate_punctuality`. -/
structure GeogAggRow where
  geography_code : String
  geography_name : String
  service_stops : ℕ
  punctual_service_stops : ℤ
  punctuality_rate : ℚ
deriving DecidableEq, Repr

/-- The per-row column
`punctual_service_stops = (service_stops * punctuality_rate).astype(int)`. -/
def punctualServiceStops (r : GeogLabelledRow) : ℤ :=
  truncTowardZero ((r.service_stops : ℚ) * r.punctuality_rate)

/-- The geography key pair a row is grouped by. -/
def geogKey (r : GeogLabelledRow) : String × String :=
  (r.geography_code, r.geography_name)

/-- `AggregationTool._reaggregate_punctuality`: add the truncated
`punctual_service_stops` column, group by the chosen (code, name) pair summing
`service_stops` and `punctual_service_stops`, then set
`punctuality_rate = punctual_service_stops / service_stops`. -/
def reaggregate_punctuality (labelled : List GeogLabelledRow) : List GeogAggRow :=
  (labelled.map geogKey).dedup.map fun k =>
    let grp := labelled.filter fun r => decide (geogKey r = k)
    let ss : ℕ := (grp.map (fun r => r.service_stops)).sum
    let pss : ℤ := (grp.map punctualServiceStops).sum
    { geography_code := k.1
      geography_name := k.2
      service_stops := ss
      punctual_service_stops := pss
      punctuality_rate := (pss : ℚ) / (ss : ℚ) }

/-- `df.unique(key)` with the polars default keep policy: one row kept per key
value; the model keeps the first row of the dataframe carrying each key. -/
def uniqueKeepFirst {α β : Type} (key : α → β) [DecidableEq β] : List α → List α
  | [] => []
  | x :: xs =>
      x :: uniqueKeepFirst key (xs.filter fun y => decide (key y ≠ key x))
termination_by l => l.length
decreasing_by
  simp only [List.length_cons]
  exact Nat.lt_succ_of_le (List.length_filter_le _ _)

/-- One timetable service-stop row as produced by `load_raw_timetable_data`
(before the `UID` column is added in `build_timetable`). -/
structure TTRaw where
  trip_id : String
  route_id : String
  stop_id : String
  stop_sequence : ℕ
  timetable_date : String
  unix_arrival_time : ℤ
  stop_lat : ℚ
  stop_lon : ℚ
deriving DecidableEq, Repr

/-- A timetable row with its `UID` column added. -/
structure TTRow extends TTRaw where
  UID : String
deriving DecidableEq, Repr

/-- The `UID` column of `build_timetable`:
`concat_str([timetable_date, stop_sequence, trip_id, route_id], separator="_")`.
All four columns are non-null on timetable rows. -/
def ttUID (r : TTRaw) : String :=
  r.timetable_date ++ "_" ++ toString r.stop_sequence ++ "_" ++ r.trip_id ++ "_" ++ r.route_id

/-- `Schedule_Builder.build_timetable` after the raw load: when the partial
window is enabled, keep the rows with
`unix_arrival_time >= int(datestamp + time_from*3600 - 1800)` and
`unix_arrival_time < int(datestamp + time_to*3600 + 1800)`; then add the `UID`
column and deduplicate on `UID`. -/
def build_timetable (window_enabled : Bool) (datestamp : ℤ)
    (time_from time_to : ℚ) (df : List TTRaw) : List TTRow :=
  let tt_time_from := truncTowardZero ((datestamp : ℚ) + time_from * 60 * 60 - 1800)
  let tt_time_to := truncTowardZero ((datestamp : ℚ) + time_to * 60 * 60 + 1800)
  let windowed :=
    if window_enabled then
      df.filter fun r =>
        decide (tt_time_from ≤ r.unix_arrival_time ∧ r.unix_arrival_time < tt_time_to)
    else df
  uniqueKeepFirst (fun r => r.UID)
    (windowed.map fun r => { toTTRaw := r, UID := ttUID r })

/-- The three realtime columns selected in `punctuality_by_stop`:
`realtime_df[["UID", "time_transpond", "bus_id"]]`. -/
structure RTRow where
  UID : String
  time_transpond : ℤ
  bus_id : ℤ
deriving DecidableEq, Repr

/-- One row of the inner join of realtime and timetable data on `UID`. -/
structure SchedRow where
  UID : String
  time_transpond : ℤ
  bus_id : ℤ
  tt : TTRow
deriving DecidableEq, Repr

/-- One joined row: the three selected realtime columns next to the matched
timetable row. -/
def mkSchedRow (r : RTRow) (t : TTRow) : SchedRow :=
  { UID := r.UID, time_transpond := r.time_transpond, bus_id := r.bus_id, tt := t }

/-- The inner-join-then-`unique()` prefix of `punctuality_by_stop`:
`realtime_df[["UID","time_transpond","bus_id"]].join(timetable_df, on="UID",
how="inner").unique()`. -/
def joinedSchedule (realtime_df : List RTRow) (timetable_df : List TTRow) : List SchedRow :=
  (realtime_df.flatMap fun r =>
    (timetable_df.filter fun t => decide (t.UID = r.UID)).map (mkSchedRow r)).dedup

/-- The (stop_id, stop_lat, stop_lon) grouping key of `punctuality_by_stop`. -/
def stopKey (s : SchedRow) : String × ℚ × ℚ :=
  (s.tt.stop_id, s.tt.stop_lat, s.tt.stop_lon)

/-- One output row of `punctuality_by_stop`. -/
structure StopPunctualityRow where
  stop_id : String
  stop_lat : ℚ
  stop_lon : ℚ
  service_stops : ℕ
  punctuality_rate : ℚ
deriving DecidableEq, Repr

/-- `Schedule_Builder.punctuality_by_stop`: inner-join realtime and timetable
on `UID`, derive `relative_punctuality = unix_arrival_time - time_transpond`
and the `punctual` flag, then group by (stop_id, stop_lat, stop_lon) with
`service_stops = count(punctual)` and `punctuality_rate = mean(punctual)`. -/
def punctuality_by_stop (realtime_df : List RTRow) (timetable_df : List TTRow) :
    List StopPunctualityRow :=
  let df := joinedSchedule realtime_df timetable_df
  (df.map stopKey).dedup.map fun k =>
    let grp := df.filter fun s => decide (stopKey s = k)
    let punct := (grp.map fun s =>
      punctualFlag (s.tt.unix_arrival_time - s.time_transpond)).sum
    { stop_id := k.1
      stop_lat := k.2.1
      stop_lon := k.2.2
      service_stops := grp.length
      punctuality_rate := (punct : ℚ) / (grp.length : ℚ) }

/-- The Europe/London time-zone policy used by `convert_string_time_to_unix`
(`dt.replace_time_zone` resolves a naive local time to an offset) and by
`convert_unix_to_time_string` (`dt.convert_time_zone` resolves an instant to
an offset).  Offsets are seconds east of UTC (0 in GMT, 3600 in BST). -/
structure TimeZoneModel where
  offsetAtLocal : ℤ → ℤ
  offsetAtInstant : ℤ → ℤ

/-- `convert_string_time_to_unix` applied to one row: format
`"{timetable_date} {HH:MM:SS}"`, parse as a naive datetime,
`replace_time_zone("Europe/London")`, convert to UTC and take epoch seconds.
`dateNaiveMidnight` is the naive epoch value of the date's midnight. -/
def convert_string_time_to_unix (z : TimeZoneModel) (dateNaiveMidnight : ℤ)
    (hh mm ss : ℕ) : ℤ :=
  let naive := dateNaiveMidnight + ((hh * 3600 + mm * 60 + ss : ℕ) : ℤ)
  naive - z.offsetAtLocal naive

/-- `convert_unix_to_time_string` applied to one value: epoch seconds →
UTC datetime → `convert_time_zone("Europe/London")` → cast to `pl.Time`
(the wall-clock time of day, returned here as an (hour, minute, second)
triple). -/
def convert_unix_to_time_string (z : TimeZoneModel) (e : ℤ) : ℕ × ℕ × ℕ :=
  let localSec := e + z.offsetAtInstant e
  let sod := (localSec % 86400).toNat
  (sod / 3600, sod % 3600 / 60, sod % 60)

/-- One row of the NaPTAN `gb_stops.csv` source. -/
structure NaptanStop where
  ATCOCode : String
  Status : String
  Latitude : Option ℚ
  Longitude : Option ℚ
  Easting : Option ℤ
  Northing : Option ℤ
deriving DecidableEq, Repr

/-- One output row of the stop registry loader. -/
structure StopsRow where
  stop_id : String
  stop_lat : Option ℚ
  stop_lon : Option ℚ
deriving DecidableEq, Repr

/-- `build_stops` from `src/bus_metrics/aggregation/preprocessing.py` (the
variant imported by `build_schedules.py`): convert the Easting/Northing
columns via `convert_lonlat` (passed abstractly), `fill_null` the
Latitude/Longitude columns with the converted values, and return
(ATCOCode, Latitude, Longitude) renamed to (stop_id, stop_lat, stop_lon).
No status filter and no error on missing coordinates. -/
def build_stops (convert_lonlat : Option ℤ → Option ℤ → Option ℚ × Option ℚ)
    (stops : List NaptanStop) : List StopsRow :=
  stops.map fun s =>
    let lonlat := convert_lonlat s.Easting s.Northing
    { stop_id := s.ATCOCode
      stop_lat := s.Latitude.orElse fun _ => lonlat.2
      stop_lon := s.Longitude.orElse fun _ => lonlat.1 }

/-- `build_stops` from `src/utils/preprocessing.py`: filters to
`Status == "active"`; the two `stops.with_columns(...)` results are discarded
(not reassigned), so Latitude/Longitude pass through unchanged. -/
def utils_build_stops (stops : List NaptanStop) : List StopsRow :=
  (stops.filter fun s => decide (s.Status = "active")).map fun s =>
    { stop_id := s.ATCOCode, stop_lat := s.Latitude, stop_lon := s.Longitude }

/-- One row of the persisted stop-level punctuality file. -/
structure StopPunctFileRow where
  stop_id : String
  stop_lat : ℚ
  stop_lon : ℚ
  service_stops : ℕ
  punctuality_rate : ℚ
deriving DecidableEq, Repr

/-- One row of the geography lookup table file. -/
structure LookupFileRow where
  stop_id : String
  stop_lat : ℚ
  stop_lon : ℚ
  geography_code : String
  geography_name : String
deriving DecidableEq, Repr

/-- One row of the left merge of stop punctuality with the lookup table. -/
structure MergedRow where
  stop : StopPunctFileRow
  geography_code : Option String
  geography_name : Option String
deriving DecidableEq, Repr

/-- The local files `AggregationTool` reads; `none` models a missing file. -/
structure LocalFiles where
  stop_level_punctuality : Option (List StopPunctFileRow)
  geography_lookup_table : Option (List LookupFileRow)

/-- The error raised by `pd.read_csv` on a missing file. -/
inductive ReadError where
  | fileNotFound : String → ReadError
deriving DecidableEq, Repr

/-- `AggregationTool.merge_geographies_with_stop_punctuality`: read the
stop-level punctuality file, read the geography lookup file, and left-merge
on (stop_id, stop_lat, stop_lon); a missing file raises `FileNotFoundError`
which is logged and re-raised (`raise` after `print`). -/
def merge_geographies_with_stop_punctuality (files : LocalFiles) :
    Except ReadError (List MergedRow) := do
  let stops ← match files.stop_level_punctuality with
    | none => Except.error (ReadError.fileNotFound "stop_level_punctuality")
    | some t => Except.ok t
  let lookup ← match files.geography_lookup_table with
    | none => Except.error (ReadError.fileNotFound "geography_lookup_table")
    | some t => Except.ok t
  Except.ok (stops.flatMap fun s =>
    match lookup.filter fun l =>
        decide (l.stop_id = s.stop_id ∧ l.stop_lat = s.stop_lat ∧ l.stop_lon = s.stop_lon) with
    | [] => [{ stop := s, geography_code := none, geography_name := none }]
    | ms => ms.map fun l =>
        { stop := s, geography_code := some l.geography_code,
          geography_name := some l.geography_name })

/-! ### Helper lemmas -/

lemma count_filter_eq {α : Type} [DecidableEq α] (p : α → Bool) (a : α) (l : List α) :
    List.count a (l.filter p) = if p a then l.count a else 0 := by
  by_cases h : p a = true
  · simp only [h, if_true]
    exact List.count_filter h
  · simp only [h, if_false]
    refine List.count_eq_zero.mpr fun hmem => h ?_
    exact (List.mem_filter.mp hmem).2

/-! ### C1 -/

/-- C1: in `punctuality_by_stop` a joined stop event gets `punctual = 1` iff
its relative punctuality is strictly between -300 and 60; the boundary values
-300 and 60 give 0, while -299 and 59 give 1. -/
theorem C1_punctuality_boundary :
    (∀ r : ℤ, punctualFlag r = 1 ↔ -300 < r ∧ r < 60) ∧
    punctualFlag (-300) = 0 ∧ punctualFlag (-299) = 1 ∧
    punctualFlag 60 = 0 ∧ punctualFlag 59 = 1 := by
  refine ⟨fun r => ?_, by decide, by decide, by decide, by decide⟩
  by_cases h : -300 < r ∧ r < 60 <;> simp [punctualFlag, h]

/-! ### C3 -/

/-- A realtime ping with `trip_id` present but `route_id` null. -/
def c3_mixed_ping : Ping :=
  { time_ingest := 1708515464, time_transpond := 1708515464, bus_id := 7357,
    trip_id := some "trip0", route_id := none, current_stop := some 0,
    latitude := 0, longitude := 0, bearing := 0, journey_date := 20240221 }

/-- C3 counterexample: a ping with exactly one of trip_id/route_id null is
placed in neither output of `split_realtime_data`, so the two outputs do not
cover the input. -/
theorem C3_counterexample :
    c3_mixed_ping ∈ [c3_mixed_ping] ∧
    c3_mixed_ping ∉ (split_realtime_data [c3_mixed_ping]).1 ∧
    c3_mixed_ping ∉ (split_realtime_data [c3_mixed_ping]).2 := by
  decide

/-- C3 amended: `split_realtime_data` places a ping in the labelled output iff
both trip_id and route_id are non-null, and in the unlabelled output iff both
are null; a ping with exactly one of the two null lands in neither output, so
the two outputs together contain exactly the rows that are not mixed-null
(each such row exactly as often as in the input). -/
theorem C3_split_semantics (df : List Ping) (p : Ping) :
    (p ∈ (split_realtime_data df).1 ↔ p ∈ df ∧ p.trip_id ≠ none ∧ p.route_id ≠ none) ∧
    (p ∈ (split_realtime_data df).2 ↔ p ∈ df ∧ p.trip_id = none ∧ p.route_id = none) ∧
    List.count p ((split_realtime_data df).1 ++ (split_realtime_data df).2) =
      (if (p.trip_id ≠ none ∧ p.route_id ≠ none) ∨ (p.trip_id = none ∧ p.route_id = none)
       then List.count p df else 0) := by
  refine ⟨?_, ?_, ?_⟩
  · simp [split_realtime_data, List.mem_filter, Option.isSome_iff_ne_none]
  · simp [split_realtime_data, List.mem_filter, Option.isNone_iff_eq_none]
  · rw [List.count_append]
    simp only [split_realtime_data, count_filter_eq]
    rcases htrip : p.trip_id with _ | t <;> rcases hroute : p.route_id with _ | r <;> simp

/-! ### C2 -/

lemma mem_of_mem_uniqueKeepLast {α β : Type} (key : α → β) [DecidableEq β]
    {l : List α} {a : α} (h : a ∈ uniqueKeepLast key l) : a ∈ l := by
  induction l with
  | nil =>
    rw [uniqueKeepLast] at h
    exact absurd h (List.not_mem_nil a)
  | cons x xs ih =>
    by_cases hc : (xs.any fun y => decide (key y = key x)) = true
    · rw [uniqueKeepLast, if_pos hc] at h
      exact List.mem_cons_of_mem _ (ih h)
    · rw [uniqueKeepLast, if_neg hc] at h
      rcases List.mem_cons.mp h with h1 | h2
      · exact h1 ▸ List.mem_cons_self x xs
      · exact List.mem_cons_of_mem _ (ih h2)

lemma pairwise_uniqueKeepLast {α β : Type} (key : α → β) [DecidableEq β] (l : List α) :
    (uniqueKeepLast key l).Pairwise fun a b => key a ≠ key b := by
  induction l with
  | nil => simp [uniqueKeepLast]
  | cons x xs ih =>
    by_cases hc : (xs.any fun y => decide (key y = key x)) = true
    · rw [uniqueKeepLast, if_pos hc]; exact ih
    · rw [uniqueKeepLast, if_neg hc]
      refine List.Pairwise.cons (fun b hb heq => ?_) ih
      have hbxs := mem_of_mem_uniqueKeepLast key hb
      exact hc (List.any_eq_true.mpr ⟨b, hbxs, decide_eq_true heq.symm⟩)

lemma uniqueKeepLast_mem_last {α β : Type} (key : α → β) [DecidableEq β]
    {l1 l2 : List α} {a : α} (h : ∀ x ∈ l2, key x ≠ key a) :
    a ∈ uniqueKeepLast key (l1 ++ a :: l2) := by
  induction l1 with
  | nil =>
    have hc : ¬ ((l2.any fun y => decide (key y = key a)) = true) := by
      rw [List.any_eq_true]
      rintro ⟨x, hx, hdx⟩
      exact h x hx (of_decide_eq_true hdx)
    rw [List.nil_append, uniqueKeepLast, if_neg hc]
    exact List.mem_cons_self a _
  | cons y l1 ih =>
    rw [List.cons_append, uniqueKeepLast]
    by_cases hc : (((l1 ++ a :: l2).any fun z => decide (key z = key y)) = true)
    · rw [if_pos hc]; exact ih
    · rw [if_neg hc]; exact List.mem_cons_of_mem _ ih

lemma exists_split_last {α : Type} {a : α} {l : List α} [DecidableEq α] (h : a ∈ l) :
    ∃ l1 l2, l = l1 ++ a :: l2 ∧ a ∉ l2 := by
  induction l with
  | nil => cases h
  | cons x xs ih =>
    by_cases hx : a ∈ xs
    · obtain ⟨l1, l2, rfl, hnl⟩ := ih hx
      exact ⟨x :: l1, l2, rfl, hnl⟩
    · have hax : a = x := by
        rcases List.mem_cons.mp h with h1 | h2
        · exact h1
        · exact absurd h2 hx
      subst hax
      exact ⟨[], xs, rfl, hx⟩

lemma pingSortKey_lt_of_ingest {p q : Ping} (h1 : p.trip_id = q.trip_id)
    (h2 : p.current_stop = q.current_stop) (h3 : p.time_transpond = q.time_transpond)
    (h4 : p.time_ingest < q.time_ingest) : pingSortKey p < pingSortKey q := by
  unfold pingSortKey
  rw [Prod.Lex.lt_iff]
  right
  refine ⟨by rw [h1], ?_⟩
  rw [Prod.Lex.lt_iff]
  right
  refine ⟨by rw [h2], ?_⟩
  rw [Prod.Lex.lt_iff]
  right
  exact ⟨h3, h4⟩

lemma pingSortKey_lt_of_transpond {p q : Ping} (h1 : p.trip_id = q.trip_id)
    (h2 : p.current_stop = q.current_stop) (h3 : p.time_transpond < q.time_transpond) :
    pingSortKey p < pingSortKey q := by
  unfold pingSortKey
  rw [Prod.Lex.lt_iff]
  right
  refine ⟨by rw [h1], ?_⟩
  rw [Prod.Lex.lt_iff]
  right
  refine ⟨by rw [h2], ?_⟩
  rw [Prod.Lex.lt_iff]
  left
  exact h3

/-- A ping whose transmission arrived late at the ingest pipeline: largest
`time_ingest` of its UID group but smallest `time_transpond`. -/
def c2_ping_early_transpond : Ping :=
  { time_ingest := 300, time_transpond := 50, bus_id := 1,
    trip_id := some "trip1", route_id := some "route1", current_stop := some 4,
    latitude := 0, longitude := 0, bearing := 0, journey_date := 20240221 }

/-- A ping of the same UID group with larger `time_transpond` but smaller
`time_ingest`. -/
def c2_ping_late_transpond : Ping :=
  { time_ingest := 200, time_transpond := 100, bus_id := 2,
    trip_id := some "trip1", route_id := some "route1", current_stop := some 4,
    latitude := 0, longitude := 0, bearing := 0, journey_date := 20240221 }

/-- C2 counterexample: two labelled pings share a UID and have different
`time_ingest`, yet `build_realtime` retains the one with the smaller
`time_ingest` (the sort orders primarily by `time_transpond`, and keep-last
acts on that order). -/
theorem C2_counterexample :
    (build_realtime [c2_ping_early_transpond, c2_ping_late_transpond]).1 =
      [c2_ping_late_transpond] ∧
    pingUID c2_ping_early_transpond = pingUID c2_ping_late_transpond ∧
    c2_ping_late_transpond.time_ingest < c2_ping_early_transpond.time_ingest := by
  have hle : pingLE c2_ping_early_transpond c2_ping_late_transpond :=
    le_of_lt (pingSortKey_lt_of_transpond rfl rfl (by decide))
  have hsplit : (split_realtime_data [c2_ping_early_transpond, c2_ping_late_transpond]).1 =
      [c2_ping_early_transpond, c2_ping_late_transpond] := by decide
  have hsort : List.insertionSort pingLE [c2_ping_early_transpond, c2_ping_late_transpond] =
      [c2_ping_early_transpond, c2_ping_late_transpond] := by
    simp [List.insertionSort, List.orderedInsert, hle]
  refine ⟨?_, by decide, by decide⟩
  show uniqueKeepLast pingUID
      (List.insertionSort pingLE
        (split_realtime_data [c2_ping_early_transpond, c2_ping_late_transpond]).1) =
    [c2_ping_late_transpond]
  rw [hsplit, hsort]
  decide

/-- C2 amended: `build_realtime` keeps, per UID, the last row under the
ascending (trip_id, current_stop, time_transpond, time_ingest) sort; for two
labelled pings sharing a UID with the same trip_id, current_stop and
time_transpond but different time_ingest, only the ping with the greater
time_ingest is retained, and the output contains at most one row per UID. -/
theorem C2_keep_last_semantics (df : List Ping) (p q : Ping)
    (hp : p ∈ df) (hq : q ∈ df)
    (hlabp : p.trip_id ≠ none ∧ p.route_id ≠ none)
    (hlabq : q.trip_id ≠ none ∧ q.route_id ≠ none)
    (htrip : p.trip_id = q.trip_id) (hstop : p.current_stop = q.current_stop)
    (htt : p.time_transpond = q.time_transpond)
    (hingest : p.time_ingest < q.time_ingest)
    (huid : pingUID p = pingUID q)
    (honly : ∀ r ∈ df, r.trip_id ≠ none → r.route_id ≠ none →
      pingUID r = pingUID q → r = p ∨ r = q) :
    q ∈ (build_realtime df).1 ∧ p ∉ (build_realtime df).1 ∧
    ∀ l : List Ping, (build_realtime l).1.Pairwise fun a b => pingUID a ≠ pingUID b := by
  have hmemL : ∀ {r : Ping}, r ∈ df → r.trip_id ≠ none → r.route_id ≠ none →
      r ∈ (split_realtime_data df).1 := by
    intro r hr h1 h2
    refine List.mem_filter.mpr ⟨hr, ?_⟩
    simp [Option.isSome_iff_ne_none, h1, h2]
  have hpL := hmemL hp hlabp.1 hlabp.2
  have hqL := hmemL hq hlabq.1 hlabq.2
  have hsorted : (List.insertionSort pingLE (split_realtime_data df).1).Pairwise pingLE :=
    List.sorted_insertionSort pingLE (split_realtime_data df).1
  have hperm := List.perm_insertionSort pingLE (split_realtime_data df).1
  have hqS : q ∈ List.insertionSort pingLE (split_realtime_data df).1 :=
    hperm.mem_iff.mpr hqL
  have hkeylt : pingSortKey p < pingSortKey q :=
    pingSortKey_lt_of_ingest htrip hstop htt hingest
  obtain ⟨S1, S2, hsplit, hqnot⟩ := exists_split_last hqS
  have hS2 : ∀ x ∈ S2, pingUID x ≠ pingUID q := by
    intro x hx hux
    have hxS : x ∈ List.insertionSort pingLE (split_realtime_data df).1 := by
      rw [hsplit]
      exact List.mem_append_right _ (List.mem_cons_of_mem _ hx)
    have hxL := hperm.mem_iff.mp hxS
    have hxdf := (List.mem_filter.mp hxL).1
    have hcond := (List.mem_filter.mp hxL).2
    have hx12 : x.trip_id ≠ none ∧ x.route_id ≠ none := by
      simpa [Option.isSome_iff_ne_none] using hcond
    rcases honly x hxdf hx12.1 hx12.2 hux with rfl | rfl
    · have hqp : pingLE q x := by
        have hpw2 := (List.pairwise_append.mp (hsplit ▸ hsorted)).2.1
        exact (List.pairwise_cons.mp hpw2).1 x hx
      exact not_le_of_lt hkeylt hqp
    · exact hqnot hx
  have hqkeep : q ∈ (build_realtime df).1 := by
    show q ∈ uniqueKeepLast pingUID (List.insertionSort pingLE (split_realtime_data df).1)
    rw [hsplit]
    exact uniqueKeepLast_mem_last pingUID hS2
  have hpq : p ≠ q := by
    intro he
    rw [he] at hingest
    exact lt_irrefl _ hingest
  refine ⟨hqkeep, fun hpIn => ?_, fun l => pairwise_uniqueKeepLast pingUID _⟩
  have hpw := pairwise_uniqueKeepLast pingUID
      (List.insertionSort pingLE (split_realtime_data df).1)
  have hsym : Symmetric fun a b : Ping => pingUID a ≠ pingUID b :=
    fun a b hab he => hab he.symm
  exact hpw.forall hsym hpIn hqkeep hpq huid

/-- First ping of the witness pair: same transpond time, earlier ingest. -/
def c2w_ping_a : Ping :=
  { time_ingest := 100, time_transpond := 500, bus_id := 1,
    trip_id := some "trip2", route_id := some "route2", current_stop := some 7,
    latitude := 0, longitude := 0, bearing := 0, journey_date := 20240301 }

/-- Second ping of the witness pair: same transpond time, later ingest. -/
def c2w_ping_b : Ping :=
  { time_ingest := 150, time_transpond := 500, bus_id := 2,
    trip_id := some "trip2", route_id := some "route2", current_stop := some 7,
    latitude := 0, longitude := 0, bearing := 0, journey_date := 20240301 }

/-- C2 witness: on a concrete two-ping input sharing a UID with equal
transpond times, the ping with the greater ingest time is retained and the
other dropped. -/
theorem C2_keep_last_semantics_witness :
    c2w_ping_b ∈ (build_realtime [c2w_ping_a, c2w_ping_b]).1 ∧
    c2w_ping_a ∉ (build_realtime [c2w_ping_a, c2w_ping_b]).1 := by
  have h := C2_keep_last_semantics [c2w_ping_a, c2w_ping_b] c2w_ping_a c2w_ping_b
    (by decide) (by decide) (by decide) (by decide) rfl rfl rfl (by decide) (by decide)
    (by decide)
  exact ⟨h.1, h.2.1⟩

/-! ### C4 -/

lemma length_filter_key_le_one {α β : Type} [DecidableEq β] (keyf : α → β) (u : β)
    {l : List α} (h : l.Pairwise fun a b => keyf a ≠ keyf b) :
    (l.filter fun t => decide (keyf t = u)).length ≤ 1 := by
  induction l with
  | nil => simp
  | cons x xs ih =>
    rcases List.pairwise_cons.mp h with ⟨hx, hxs⟩
    rw [List.filter_cons]
    by_cases hxu : keyf x = u
    · rw [if_pos (by simp [hxu])]
      have hnil : (xs.filter fun t => decide (keyf t = u)) = [] := by
        rw [List.filter_eq_nil_iff]
        intro a ha hda
        exact hx a ha (hxu.trans (of_decide_eq_true hda).symm)
      rw [hnil]
      simp
    · rw [if_neg (by simp [hxu])]
      exact ih hxs

lemma sum_length_filter_key_le {α β : Type} [DecidableEq β] (keyf : α → β)
    {keys : List β} (hk : keys.Pairwise (· ≠ ·)) (l : List α) :
    ((keys.map fun u => (l.filter fun t => decide (keyf t = u)).length).sum ≤ l.length) := by
  induction keys generalizing l with
  | nil => simp
  | cons u ks ih =>
    rcases List.pairwise_cons.mp hk with ⟨hu, hks⟩
    rw [List.map_cons, List.sum_cons]
    have hcongr : (ks.map fun v => (l.filter fun t => decide (keyf t = v)).length) =
        ks.map fun v =>
          (((l.filter fun t => decide (keyf t ≠ u)).filter fun t =>
            decide (keyf t = v)).length) := by
      refine List.map_congr_left fun v hv => ?_
      rw [List.filter_filter]
      congr 1
      refine List.filter_congr fun t _ => ?_
      by_cases htv : keyf t = v
      · have htu : keyf t ≠ u := fun he => hu v hv (he.symm.trans htv)
        have hvu : v ≠ u := fun e => hu v hv e.symm
        simp [htv, htu, hvu]
      · simp [htv]
    rw [hcongr]
    have hrest := ih hks (l.filter fun t => decide (keyf t ≠ u))
    have hpart := List.length_eq_length_filter_add (l := l) fun t => decide (keyf t = u)
    have hneg : (l.filter fun t => !(decide (keyf t = u))) =
        l.filter fun t => decide (keyf t ≠ u) := by
      refine List.filter_congr fun t _ => ?_
      by_cases htu : keyf t = u <;> simp [htu]
    rw [hneg] at hpart
    omega

lemma joinedSchedule_mem {realtime_df : List RTRow} {timetable_df : List TTRow}
    {s : SchedRow} (hs : s ∈ joinedSchedule realtime_df timetable_df) :
    s.UID ∈ realtime_df.map RTRow.UID ∧ s.UID ∈ timetable_df.map TTRow.UID := by
  have hs' := List.mem_dedup.mp hs
  obtain ⟨r, hr, hmap⟩ := List.mem_flatMap.mp hs'
  obtain ⟨t, htf, ht⟩ := List.mem_map.mp hmap
  rcases List.mem_filter.mp htf with ⟨htt, htu⟩
  have htu' : t.UID = r.UID := of_decide_eq_true htu
  constructor
  · rw [← ht]
    exact List.mem_map.mpr ⟨r, hr, rfl⟩
  · rw [← ht]
    exact List.mem_map.mpr ⟨t, htt, htu'⟩

/-- C4: the inner join of `punctuality_by_stop` contains no UID absent from
either input; with UID-deduplicated inputs (as produced by `build_timetable`
and `build_realtime`) its pre-aggregation row count is at most the minimum of
the two input lengths; and every output row aggregates at least one matched
event, its stop key coming from a joined row (so an unmatched stop produces no
row). -/
theorem C4_inner_join (realtime_df : List RTRow) (timetable_df : List TTRow)
    (hrt : realtime_df.Pairwise fun a b => a.UID ≠ b.UID)
    (htt : timetable_df.Pairwise fun a b => a.UID ≠ b.UID) :
    (∀ s ∈ joinedSchedule realtime_df timetable_df,
      s.UID ∈ realtime_df.map RTRow.UID ∧ s.UID ∈ timetable_df.map TTRow.UID) ∧
    (joinedSchedule realtime_df timetable_df).length ≤
      min realtime_df.length timetable_df.length ∧
    (∀ out ∈ punctuality_by_stop realtime_df timetable_df,
      1 ≤ out.service_stops ∧
      ∃ s ∈ joinedSchedule realtime_df timetable_df,
        s.tt.stop_id = out.stop_id ∧ s.tt.stop_lat = out.stop_lat ∧
        s.tt.stop_lon = out.stop_lon) := by
  refine ⟨fun s hs => joinedSchedule_mem hs, ?_, ?_⟩
  · have hsub : (joinedSchedule realtime_df timetable_df).length ≤
        (realtime_df.flatMap fun r =>
          (timetable_df.filter fun t => decide (t.UID = r.UID)).map (mkSchedRow r)).length :=
      (List.dedup_sublist _).length_le
    rw [List.length_flatMap] at hsub
    have hlen : (realtime_df.map (List.length ∘ fun r =>
        (timetable_df.filter fun t => decide (t.UID = r.UID)).map (mkSchedRow r))) =
        realtime_df.map fun r =>
          (timetable_df.filter fun t => decide (t.UID = r.UID)).length := by
      refine List.map_congr_left fun r _ => ?_
      simp
    rw [hlen] at hsub
    refine le_min ?_ ?_
    · refine le_trans hsub ?_
      have hone : ∀ r ∈ realtime_df,
          (timetable_df.filter fun t => decide (t.UID = r.UID)).length ≤ 1 :=
        fun r _ => length_filter_key_le_one TTRow.UID r.UID htt
      calc (realtime_df.map fun r =>
            (timetable_df.filter fun t => decide (t.UID = r.UID)).length).sum
          ≤ (realtime_df.map fun _ => 1).sum := List.sum_le_sum hone
        _ = realtime_df.length := by simp
    · refine le_trans hsub ?_
      have hmm : (realtime_df.map fun r =>
          (timetable_df.filter fun t => decide (t.UID = r.UID)).length) =
          (realtime_df.map RTRow.UID).map fun u =>
            (timetable_df.filter fun t => decide (t.UID = u)).length := by
        rw [List.map_map]
        rfl
      rw [hmm]
      exact sum_length_filter_key_le TTRow.UID (List.pairwise_map.mpr hrt) timetable_df
  · intro out hout
    obtain ⟨k, hk, hkout⟩ := List.mem_map.mp hout
    have hk' := List.mem_dedup.mp hk
    obtain ⟨s0, hs0, hs0k⟩ := List.mem_map.mp hk'
    have hs0grp : s0 ∈ (joinedSchedule realtime_df timetable_df).filter
        fun s => decide (stopKey s = k) :=
      List.mem_filter.mpr ⟨hs0, decide_eq_true hs0k⟩
    have hpos : 1 ≤ ((joinedSchedule realtime_df timetable_df).filter
        fun s => decide (stopKey s = k)).length :=
      List.length_pos.mpr (List.ne_nil_of_mem hs0grp)
    constructor
    · rw [← hkout]
      exact hpos
    · refine ⟨s0, hs0, ?_, ?_, ?_⟩ <;> rw [← hkout] <;>
        simp only [← hs0k, stopKey]

/-- A concrete realtime row for the C4 witness. -/
def c4_rt_row : RTRow := { UID := "20240221_4_trip1_route1", time_transpond := 100, bus_id := 1 }

/-- A concrete timetable row for the C4 witness, sharing the realtime UID. -/
def c4_tt_row : TTRow :=
  { trip_id := "trip1", route_id := "route1", stop_id := "stopA", stop_sequence := 4,
    timetable_date := "20240221", unix_arrival_time := 130, stop_lat := 0, stop_lon := 0,
    UID := "20240221_4_trip1_route1" }

/-- C4 witness: the length bound instantiated on concrete singleton inputs. -/
theorem C4_inner_join_witness :
    (joinedSchedule [c4_rt_row] [c4_tt_row]).length ≤
      min [c4_rt_row].length [c4_tt_row].length := by
  have h := C4_inner_join [c4_rt_row] [c4_tt_row] (by simp) (by simp)
  exact h.2.1

/-! ### C5 -/

/-- First stop row of the re-aggregation scenario. -/
def c5_row1 : GeogLabelledRow :=
  { stop_id := 1, service_stops := 10, punctuality_rate := 8/10,
    geography_code := "1", geography_name := "A" }

/-- Second stop row of the re-aggregation scenario. -/
def c5_row2 : GeogLabelledRow :=
  { stop_id := 2, service_stops := 20, punctuality_rate := 9/10,
    geography_code := "2", geography_name := "B" }

/-- Third stop row of the re-aggregation scenario. -/
def c5_row3 : GeogLabelledRow :=
  { stop_id := 3, service_stops := 30, punctuality_rate := 7/10,
    geography_code := "1", geography_name := "A" }

/-- The three-stop input of the re-aggregation scenario. -/
def c5_input : List GeogLabelledRow := [c5_row1, c5_row2, c5_row3]

/-- C5: `_reaggregate_punctuality` truncates `service_stops * punctuality_rate`
per input row (floor on these non-negative values: 10*0.8 → 8, 30*0.7 → 21),
groups by (geography_code, geography_name) summing both count columns, sets the
rate to the ratio of the sums, and on the concrete three-stop input yields
("1","A",40,29,0.725) and ("2","B",20,18,0.9). -/
theorem C5_reaggregation_scenario :
    punctualServiceStops c5_row1 = 8 ∧
    punctualServiceStops c5_row3 = 21 ∧
    reaggregate_punctuality c5_input =
      [{ geography_code := "2", geography_name := "B", service_stops := 20,
         punctual_service_stops := 18, punctuality_rate := 0.9 },
       { geography_code := "1", geography_name := "A", service_stops := 40,
         punctual_service_stops := 29, punctuality_rate := 0.725 }] := by
  refine ⟨?_, ?_, ?_⟩
  · simp only [punctualServiceStops, truncTowardZero, c5_row1]
    norm_num
  · simp only [punctualServiceStops, truncTowardZero, c5_row3]
    norm_num
  · have hkeys : (c5_input.map geogKey).dedup = [("2", "B"), ("1", "A")] := by decide
    rw [reaggregate_punctuality, hkeys]
    simp only [List.map, c5_input, c5_row1, c5_row2, c5_row3, List.filter, geogKey,
      punctualServiceStops, truncTowardZero]
    norm_num

/-! ### C10 -/

/-- C10: with every input rate in [0,1], each re-aggregated geography row has
`0 ≤ punctual_service_stops ≤ service_stops`, so its output rate lies in [0,1]
whenever the geography's `service_stops` sum is positive. -/
theorem C10_rate_invariant (labelled : List GeogLabelledRow)
    (h : ∀ r ∈ labelled, 0 ≤ r.punctuality_rate ∧ r.punctuality_rate ≤ 1) :
    ∀ out ∈ reaggregate_punctuality labelled,
      0 ≤ out.punctual_service_stops ∧
      out.punctual_service_stops ≤ (out.service_stops : ℤ) ∧
      (0 < out.service_stops → 0 ≤ out.punctuality_rate ∧ out.punctuality_rate ≤ 1) := by
  intro out hout
  obtain ⟨k, hk, hkout⟩ := List.mem_map.mp hout
  have hsubgrp : ∀ r ∈ labelled.filter fun r => decide (geogKey r = k),
      0 ≤ r.punctuality_rate ∧ r.punctuality_rate ≤ 1 :=
    fun r hr => h r (List.mem_filter.mp hr).1
  have hrow : ∀ r ∈ labelled.filter fun r => decide (geogKey r = k),
      0 ≤ punctualServiceStops r ∧ punctualServiceStops r ≤ (r.service_stops : ℤ) := by
    intro r hr
    obtain ⟨h0, h1⟩ := hsubgrp r hr
    have hq0 : 0 ≤ (r.service_stops : ℚ) * r.punctuality_rate :=
      mul_nonneg (by positivity) h0
    unfold punctualServiceStops truncTowardZero
    rw [if_pos hq0]
    refine ⟨Int.floor_nonneg.mpr hq0, ?_⟩
    have hle : (r.service_stops : ℚ) * r.punctuality_rate ≤ (r.service_stops : ℚ) := by
      calc (r.service_stops : ℚ) * r.punctuality_rate
          ≤ (r.service_stops : ℚ) * 1 := mul_le_mul_of_nonneg_left h1 (by positivity)
        _ = (r.service_stops : ℚ) := mul_one _
    calc ⌊(r.service_stops : ℚ) * r.punctuality_rate⌋
        ≤ ⌊(r.service_stops : ℚ)⌋ := Int.floor_mono hle
      _ = (r.service_stops : ℤ) := by exact_mod_cast Int.floor_natCast r.service_stops
  have hpss0 : 0 ≤ ((labelled.filter fun r => decide (geogKey r = k)).map
      punctualServiceStops).sum := by
    refine List.sum_nonneg fun x hx => ?_
    obtain ⟨r, hr, rfl⟩ := List.mem_map.mp hx
    exact (hrow r hr).1
  have hpssle : ((labelled.filter fun r => decide (geogKey r = k)).map
      punctualServiceStops).sum ≤
      ((((labelled.filter fun r => decide (geogKey r = k)).map
        fun r => r.service_stops).sum : ℕ) : ℤ) := by
    have hstep := List.sum_le_sum (l := labelled.filter fun r => decide (geogKey r = k))
      (f := punctualServiceStops) (g := fun r => (r.service_stops : ℤ))
      fun r hr => (hrow r hr).2
    refine le_trans hstep (le_of_eq ?_)
    rw [Nat.cast_list_sum, List.map_map]
    rfl
  rw [← hkout]
  dsimp only
  refine ⟨hpss0, hpssle, fun hpos => ?_⟩
  have hposQ : (0:ℚ) < ((((labelled.filter fun r => decide (geogKey r = k)).map
      fun r => r.service_stops).sum : ℕ) : ℚ) := by exact_mod_cast hpos
  constructor
  · exact div_nonneg (by exact_mod_cast hpss0) (le_of_lt hposQ)
  · rw [div_le_one hposQ]
    have hc : (((List.map punctualServiceStops
        (List.filter (fun r => decide (geogKey r = k)) labelled)).sum : ℤ) : ℚ) ≤
        ((((List.map (fun r => r.service_stops)
          (List.filter (fun r => decide (geogKey r = k)) labelled)).sum : ℕ) : ℤ) : ℚ) :=
      Int.cast_le.mpr hpssle
    rwa [Int.cast_natCast] at hc

/-- A single labelled row used to instantiate the C10 invariant. -/
def c10_row : GeogLabelledRow :=
  { stop_id := 1, service_stops := 2, punctuality_rate := 1/2,
    geography_code := "0", geography_name := "Z" }

/-- C10 witness: the invariant instantiated on a concrete one-row input with
rate 1/2. -/
theorem C10_rate_invariant_witness :
    (∀ r ∈ [c10_row], 0 ≤ r.punctuality_rate ∧ r.punctuality_rate ≤ 1) ∧
    ∀ out ∈ reaggregate_punctuality [c10_row],
      0 ≤ out.punctual_service_stops ∧
      out.punctual_service_stops ≤ (out.service_stops : ℤ) ∧
      (0 < out.service_stops → 0 ≤ out.punctuality_rate ∧ out.punctuality_rate ≤ 1) := by
  have hh : ∀ r ∈ [c10_row], 0 ≤ r.punctuality_rate ∧ r.punctuality_rate ≤ 1 := by
    intro r hr
    rcases List.mem_singleton.mp hr with rfl
    constructor <;> norm_num [c10_row]
  exact ⟨hh, C10_rate_invariant [c10_row] hh⟩

/-! ### C6 -/

lemma uniqueKeepFirst_eq_of_pairwise {α β : Type} {key : α → β} [DecidableEq β]
    {l : List α} (h : l.Pairwise fun a b => key a ≠ key b) :
    uniqueKeepFirst key l = l := by
  induction l with
  | nil => rw [uniqueKeepFirst]
  | cons x xs ih =>
    rcases List.pairwise_cons.mp h with ⟨hx, hxs⟩
    rw [uniqueKeepFirst]
    have hf : (xs.filter fun y => decide (key y ≠ key x)) = xs := by
      rw [List.filter_eq_self]
      intro a ha
      exact decide_eq_true fun he => hx a ha he.symm
    rw [hf, ih hxs]

/-- A timetable row scheduled exactly at `window_end + 1800`. -/
def c6_row : TTRaw :=
  { trip_id := "t", route_id := "r", stop_id := "s", stop_sequence := 1,
    timetable_date := "20240221", unix_arrival_time := 37800, stop_lat := 0, stop_lon := 0 }

/-- The retention window exactly as the specification words it: the closed
interval from `window_start - 1800` to `window_end + 1800`. -/
def specClosedWindow (window_start window_end : ℚ) (arr : ℤ) : Prop :=
  window_start - 1800 ≤ (arr : ℚ) ∧ (arr : ℚ) ≤ window_end + 1800

/-- C6 counterexample: with a 7:00-10:00 window on a day starting at epoch 0,
a row scheduled exactly at `window_end + 1800 = 37800` lies in the claimed
closed interval yet `build_timetable` drops it (the upper bound is strict). -/
theorem C6_counterexample :
    specClosedWindow ((0 : ℚ) + 7 * 60 * 60) ((0 : ℚ) + 10 * 60 * 60)
      c6_row.unix_arrival_time ∧
    build_timetable true 0 7 10 [c6_row] = [] := by
  constructor
  · constructor <;> norm_num [specClosedWindow, c6_row]
  · norm_num [build_timetable, truncTowardZero, c6_row, uniqueKeepFirst]

/-- C6 amended: with the partial window enabled and UID-distinct rows,
`build_timetable` retains exactly the rows with
`int(datestamp + time_from*3600 - 1800) ≤ scheduled_arrival_unix` and
`scheduled_arrival_unix < int(datestamp + time_to*3600 + 1800)` — closed below
but open above, not the closed interval on both sides. -/
theorem C6_window_half_open (datestamp : ℤ) (time_from time_to : ℚ) (df : List TTRaw)
    (hU : df.Pairwise fun a b => ttUID a ≠ ttUID b) (r : TTRaw) :
    (({ toTTRaw := r, UID := ttUID r } : TTRow) ∈
        build_timetable true datestamp time_from time_to df ↔
      r ∈ df ∧
      truncTowardZero ((datestamp : ℚ) + time_from * 60 * 60 - 1800) ≤ r.unix_arrival_time ∧
      r.unix_arrival_time < truncTowardZero ((datestamp : ℚ) + time_to * 60 * 60 + 1800)) := by
  have hexp : build_timetable true datestamp time_from time_to df =
      (df.filter fun r0 =>
        decide (truncTowardZero ((datestamp : ℚ) + time_from * 60 * 60 - 1800) ≤
            r0.unix_arrival_time ∧
          r0.unix_arrival_time <
            truncTowardZero ((datestamp : ℚ) + time_to * 60 * 60 + 1800))).map
        fun r0 => ({ toTTRaw := r0, UID := ttUID r0 } : TTRow) := by
    simp only [build_timetable, if_true]
    refine uniqueKeepFirst_eq_of_pairwise ?_
    refine List.pairwise_map.mpr ?_
    exact hU.sublist (List.filter_sublist df)
  rw [hexp]
  constructor
  · intro hmem
    obtain ⟨r0, hr0, heq⟩ := List.mem_map.mp hmem
    have hr0r : r0 = r := by
      have := congrArg TTRow.toTTRaw heq
      simpa using this
    subst hr0r
    rcases List.mem_filter.mp hr0 with ⟨hin, hcond⟩
    exact ⟨hin, of_decide_eq_true hcond⟩
  · rintro ⟨hin, hc1, hc2⟩
    refine List.mem_map.mpr ⟨r, List.mem_filter.mpr ⟨hin, decide_eq_true ⟨hc1, hc2⟩⟩, rfl⟩

/-- A timetable row scheduled strictly inside the buffered window. -/
def c6w_row : TTRaw :=
  { trip_id := "t2", route_id := "r2", stop_id := "s2", stop_sequence := 2,
    timetable_date := "20240301", unix_arrival_time := 30000, stop_lat := 0, stop_lon := 0 }

/-- C6 witness: a row at epoch 30000 inside the 7:00-10:00 buffered window is
retained by `build_timetable`. -/
theorem C6_window_half_open_witness :
    ({ toTTRaw := c6w_row, UID := ttUID c6w_row } : TTRow) ∈
      build_timetable true 0 7 10 [c6w_row] := by
  refine (C6_window_half_open 0 7 10 [c6w_row] (by simp) c6w_row).mpr ⟨by simp, ?_, ?_⟩
  · have h : truncTowardZero (((0:ℤ) : ℚ) + 7 * 60 * 60 - 1800) = 23400 := by
      norm_num [truncTowardZero]
    rw [h]
    norm_num [c6w_row]
  · have h : truncTowardZero (((0:ℤ) : ℚ) + 10 * 60 * 60 + 1800) = 37800 := by
      norm_num [truncTowardZero]
    rw [h]
    norm_num [c6w_row]

/-! ### C7 -/

/-- C7: on a date whose local day contains no DST transition (expressed by the
hypothesis that the instant's offset resolution agrees with the local
resolution used when localizing), converting a well-formed time of day to epoch
seconds and back returns it unchanged, both conversions using the same
Europe/London zone model. -/
theorem C7_time_round_trip (z : TimeZoneModel) (D : ℤ) (hh mm ss : ℕ)
    (hD : D % 86400 = 0) (h24 : hh < 24) (h60m : mm < 60) (h60s : ss < 60)
    (hz : z.offsetAtInstant (convert_string_time_to_unix z D hh mm ss) =
      z.offsetAtLocal (D + ((hh * 3600 + mm * 60 + ss : ℕ) : ℤ))) :
    convert_unix_to_time_string z (convert_string_time_to_unix z D hh mm ss) =
      (hh, mm, ss) := by
  unfold convert_unix_to_time_string
  unfold convert_string_time_to_unix at hz ⊢
  dsimp only
  rw [hz]
  have hsod : ((D + ((hh * 3600 + mm * 60 + ss : ℕ) : ℤ) -
      z.offsetAtLocal (D + ((hh * 3600 + mm * 60 + ss : ℕ) : ℤ)) +
      z.offsetAtLocal (D + ((hh * 3600 + mm * 60 + ss : ℕ) : ℤ))) % 86400).toNat =
      hh * 3600 + mm * 60 + ss := by omega
  rw [hsod]
  refine Prod.ext ?_ (Prod.ext ?_ ?_) <;> dsimp only <;> omega

/-- The Europe/London zone during British Summer Time: constant offset 3600. -/
def c7_zone : TimeZoneModel :=
  { offsetAtLocal := fun _ => 3600, offsetAtInstant := fun _ => 3600 }

/-- C7 witness: 08:30:00 on a BST day round-trips unchanged. -/
theorem C7_time_round_trip_witness :
    convert_unix_to_time_string c7_zone (convert_string_time_to_unix c7_zone 0 8 30 0) =
      (8, 30, 0) :=
  C7_time_round_trip c7_zone 0 8 30 0 (by decide) (by decide) (by decide) (by decide) rfl

/-! ### C8 -/

/-- A stop whose status is not "active" but which has full coordinates. -/
def c8_inactive_stop : NaptanStop :=
  { ATCOCode := "x", Status := "inactive", Latitude := some 1, Longitude := some 2,
    Easting := none, Northing := none }

/-- A stop with neither latitude/longitude nor easting/northing. -/
def c8_bare_stop : NaptanStop :=
  { ATCOCode := "y", Status := "active", Latitude := none, Longitude := none,
    Easting := none, Northing := none }

/-- A coordinate conversion producing nulls for the all-null inputs. -/
def c8_conv_none : Option ℤ → Option ℤ → Option ℚ × Option ℚ := fun _ _ => (none, none)

/-- C8 counterexample: the pipeline stop loader keeps a non-active stop, and a
row with neither lat/lon nor easting/northing yields a row with null
coordinates instead of raising `MissingCoordinateError` (which exists nowhere
in the repository). -/
theorem C8_counterexample :
    build_stops c8_conv_none [c8_inactive_stop, c8_bare_stop] =
      [{ stop_id := "x", stop_lat := some 1, stop_lon := some 2 },
       { stop_id := "y", stop_lat := none, stop_lon := none }] ∧
    c8_inactive_stop.Status ≠ "active" := by
  constructor
  · rfl
  · decide

/-- C8 amended: the pipeline `build_stops` keeps every source row (no status
filter, no failure); it never overwrites a present latitude/longitude and uses
the easting/northing conversion only to fill missing ones; the legacy
`src/utils` variant filters to active stops but passes latitude/longitude
through unchanged. -/
theorem C8_stops_loader_semantics (conv : Option ℤ → Option ℤ → Option ℚ × Option ℚ)
    (stops : List NaptanStop) :
    (build_stops conv stops).length = stops.length ∧
    (∀ i : ℕ, ∀ hi : i < stops.length, ∃ hi2 : i < (build_stops conv stops).length,
        (build_stops conv stops)[i].stop_id = stops[i].ATCOCode ∧
        (∀ v, stops[i].Latitude = some v →
          (build_stops conv stops)[i].stop_lat = some v) ∧
        (stops[i].Latitude = none →
          (build_stops conv stops)[i].stop_lat =
            (conv stops[i].Easting stops[i].Northing).2) ∧
        (∀ v, stops[i].Longitude = some v →
          (build_stops conv stops)[i].stop_lon = some v) ∧
        (stops[i].Longitude = none →
          (build_stops conv stops)[i].stop_lon =
            (conv stops[i].Easting stops[i].Northing).1)) ∧
    (∀ out ∈ utils_build_stops stops, ∃ s ∈ stops, s.Status = "active" ∧
      out = { stop_id := s.ATCOCode, stop_lat := s.Latitude, stop_lon := s.Longitude }) := by
  have hlen : (build_stops conv stops).length = stops.length := by
    simp [build_stops]
  refine ⟨hlen, ?_, ?_⟩
  · intro i hi
    refine ⟨hlen ▸ hi, ?_⟩
    have hget : (build_stops conv stops)[i] =
        (fun s : NaptanStop =>
          ({ stop_id := s.ATCOCode,
             stop_lat := s.Latitude.orElse fun _ => (conv s.Easting s.Northing).2,
             stop_lon := s.Longitude.orElse fun _ => (conv s.Easting s.Northing).1 } :
            StopsRow)) stops[i] := by
      simp [build_stops]
    rw [hget]
    refine ⟨rfl, ?_, ?_, ?_, ?_⟩
    · intro v hv
      simp [hv]
    · intro hv
      simp [hv]
    · intro v hv
      simp [hv]
    · intro hv
      simp [hv]
  · intro out hout
    obtain ⟨s, hs, hmap⟩ := List.mem_map.mp hout
    rcases List.mem_filter.mp hs with ⟨hin, hst⟩
    exact ⟨s, hin, of_decide_eq_true hst, hmap.symm⟩

/-- A stop with a present latitude and a missing longitude. -/
def c8w_stop : NaptanStop :=
  { ATCOCode := "w", Status := "active", Latitude := some 5, Longitude := none,
    Easting := some 100, Northing := some 200 }

/-- A conversion returning concrete (lon, lat) values. -/
def c8w_conv : Option ℤ → Option ℤ → Option ℚ × Option ℚ := fun _ _ => (some 3, some 4)

/-- C8 witness: on a concrete row the present latitude survives unchanged and
the missing longitude is filled from the conversion. -/
theorem C8_stops_loader_semantics_witness :
    ∃ hi2 : 0 < (build_stops c8w_conv [c8w_stop]).length,
      (build_stops c8w_conv [c8w_stop])[0].stop_lat = some 5 ∧
      (build_stops c8w_conv [c8w_stop])[0].stop_lon = some 3 := by
  obtain ⟨hi2, hid, hlat, hlatn, hlon, hlonn⟩ :=
    (C8_stops_loader_semantics c8w_conv [c8w_stop]).2.1 0 (by decide)
  exact ⟨hi2, hlat 5 rfl, (hlonn rfl).trans rfl⟩

/-! ### C9 -/

/-- C9: a missing stop-level punctuality file or geography lookup file makes
`merge_geographies_with_stop_punctuality` surface the file-not-found error to
the caller, and a successful (non-error) result exists exactly when both files
exist — never a silent empty substitute. -/
theorem C9_missing_file (files : LocalFiles) :
    (files.stop_level_punctuality = none →
      merge_geographies_with_stop_punctuality files =
        Except.error (ReadError.fileNotFound "stop_level_punctuality")) ∧
    (files.stop_level_punctuality ≠ none → files.geography_lookup_table = none →
      merge_geographies_with_stop_punctuality files =
        Except.error (ReadError.fileNotFound "geography_lookup_table")) ∧
    ((∃ t, merge_geographies_with_stop_punctuality files = Except.ok t) ↔
      files.stop_level_punctuality ≠ none ∧ files.geography_lookup_table ≠ none) := by
  obtain ⟨sp, lk⟩ := files
  cases sp <;> cases lk <;>
    simp [merge_geographies_with_stop_punctuality, Bind.bind, Except.bind]

/-- Local files with the stop punctuality present but the lookup missing. -/
def c9_files : LocalFiles :=
  { stop_level_punctuality := some [], geography_lookup_table := none }

/-- C9 witness: with the lookup file missing the merge returns the
file-not-found error. -/
theorem C9_missing_file_witness :
    merge_geographies_with_stop_punctuality c9_files =
      Except.error (ReadError.fileNotFound "geography_lookup_table") :=
  (C9_missing_file c9_files).2.1 (by simp [c9_files]) rfl

end BusMetrics
